import Mathlib

/-!
Verification development for the `transaction_parser` ledger core.

The Rust source is shallowly embedded: the `Ledger`'s two `HashMap`s become
functions into `Option`, machine integers (`u16` client ids, `u32` tx ids)
become `Nat` (they are only compared for equality), and the `i64`-backed
`Money` fixed-point value becomes `Int`.  Each Rust handler
(`worker/handlers/*.rs`) is translated into a pure state-transforming
function; every return path of every handler in the source is `Ok(())`, so
the handlers are pure `Ledger → Ledger` maps and the `Result` layer is kept
at the `Processor.process` dispatcher, mirroring `worker/processor.rs`.
-/

namespace TransactionParser

/-- Money is an `i64` holding the decimal value scaled by 10 000
(`common/money.rs`); embedded as `Int`. -/
abbrev Money := Int

/-- Per-client balance state, from `domain/account.rs`. -/
structure Account where
  available : Money
  held : Money
  locked : Bool
deriving DecidableEq

/-- Matches `Account::new` in `domain/account.rs`: zero balances, unlocked. -/
def Account.new : Account := ⟨0, 0, false⟩

/-- Matches `Account::total` in `domain/account.rs`. -/
def Account.total (a : Account) : Money := a.available + a.held

/-- Matches `Account::is_locked`. -/
def Account.isLocked (a : Account) : Bool := a.locked

/-- Transaction kind, from `domain/transaction.rs`. -/
inductive TxType where
  | Deposit
  | Withdrawal
deriving DecidableEq

/-- Transaction status, from `domain/transaction.rs`. -/
inductive TxStatus where
  | Normal
  | Disputed
  | Resolved
  | ChargedBack
deriving DecidableEq

/-- Durable record of a deposit or withdrawal, from `domain/transaction.rs`. -/
structure TransactionRecord where
  tx_id : Nat
  client : Nat
  amount : Money
  tx_type : TxType
  tx_status : TxStatus
deriving DecidableEq

/-- The two mappings owned by the ledger (`domain/ledger.rs`); the Rust
`HashMap`s are embedded as functions into `Option`. -/
structure Ledger where
  accounts : Nat → Option Account
  txs : Nat → Option TransactionRecord

/-- Matches `Ledger::new`: both maps empty. -/
def Ledger.new : Ledger := ⟨fun _ => none, fun _ => none⟩

/-- The account stored for `c`, or the fresh account that
`get_or_create_account` would insert. -/
def Ledger.acctOrNew (l : Ledger) (c : Nat) : Account :=
  (l.accounts c).getD Account.new

/-- Matches `Ledger::get_or_create_account` in `domain/ledger.rs`: inserts a
zero-balance unlocked account if absent and returns the stored account.  The
Rust version returns `&mut Account`; here the (possibly updated) ledger is
returned together with the account value it holds for `c`. -/
def Ledger.getOrCreateAccount (l : Ledger) (c : Nat) : Ledger × Account :=
  match l.accounts c with
  | some a => (l, a)
  | none =>
    ({ l with accounts := fun c' => if c' = c then some Account.new else l.accounts c' },
     Account.new)

/-- Write back the (mutated) account for client `c`; this is the effect of
mutating through the `&mut Account` returned by `get_or_create_account`. -/
def Ledger.setAccount (l : Ledger) (c : Nat) (a : Account) : Ledger :=
  { l with accounts := fun c' => if c' = c then some a else l.accounts c' }

/-- Matches `ledger.txs.insert(tx, record)`. -/
def Ledger.insertTx (l : Ledger) (t : Nat) (r : TransactionRecord) : Ledger :=
  { l with txs := fun t' => if t' = t then some r else l.txs t' }

/-- Matches `if let Some(t) = ledger.txs.get_mut(&tx) { t.set_status(st) }`. -/
def Ledger.setTxStatus (l : Ledger) (t : Nat) (st : TxStatus) : Ledger :=
  { l with
    txs := fun t' =>
      if t' = t then (l.txs t').map (fun r => { r with tx_status := st }) else l.txs t' }

/-- Events delivered by the reader, from `common/event.rs`. -/
inductive TransactionEvent where
  | Deposit (client tx : Nat) (amount : Money)
  | Withdrawal (client tx : Nat) (amount : Money)
  | Dispute (client tx : Nat)
  | Resolve (client tx : Nat)
  | Chargeback (client tx : Nat)
deriving DecidableEq

/-- The client id carried by an event. -/
def TransactionEvent.client : TransactionEvent → Nat
  | .Deposit c _ _ => c
  | .Withdrawal c _ _ => c
  | .Dispute c _ => c
  | .Resolve c _ => c
  | .Chargeback c _ => c

/-- Error type from `common/error.rs` (only the payload constructors the core
could mention; the handlers never construct any of them). -/
inductive AppError where
  | MissingArg
  | Parse (msg : String)
  | Process (msg : String)
deriving DecidableEq

/-- Matches `apply_deposit` in `worker/handlers/deposit.rs`. -/
def applyDeposit (acc : Account) (amount : Money) : Account :=
  { acc with available := acc.available + amount }

/-- Matches `deposit::handle` in `worker/handlers/deposit.rs`.  Every Rust
return path is `Ok(())`, so the handler is embedded as a pure state map. -/
def depositHandle (l : Ledger) (client tx : Nat) (amount : Money) : Ledger :=
  let p := l.getOrCreateAccount client
  if p.2.isLocked then p.1
  else if (p.1.txs tx).isSome then p.1
  else
    let l2 := p.1.setAccount client (applyDeposit p.2 amount)
    l2.insertTx tx ⟨tx, client, amount, TxType.Deposit, TxStatus.Normal⟩

/-- Matches `apply_withdrawal` in `worker/handlers/withdrawal.rs`. -/
def applyWithdrawal (acc : Account) (amount : Money) : Account :=
  if amount ≤ acc.available then { acc with available := acc.available - amount } else acc

/-- Matches `withdrawal::handle` in `worker/handlers/withdrawal.rs`. -/
def withdrawalHandle (l : Ledger) (client tx : Nat) (amount : Money) : Ledger :=
  let p := l.getOrCreateAccount client
  if p.2.isLocked then p.1
  else if (p.1.txs tx).isSome then p.1
  else
    let l2 := p.1.setAccount client (applyWithdrawal p.2 amount)
    l2.insertTx tx ⟨tx, client, amount, TxType.Withdrawal, TxStatus.Normal⟩

/-- Matches `apply_dispute` in `worker/handlers/dispute.rs`. -/
def applyDispute (acc : Account) (amount : Money) : Account :=
  { acc with available := acc.available - amount, held := acc.held + amount }

/-- Matches `dispute::handle` in `worker/handlers/dispute.rs`.  The second
`get_or_create_account` call in the source returns the account stored in
`p.1`, which is `p.2`. -/
def disputeHandle (l : Ledger) (client tx : Nat) : Ledger :=
  let p := l.getOrCreateAccount client
  if p.2.isLocked then p.1
  else
    match p.1.txs tx with
    | none => p.1
    | some t =>
      if t.client ≠ client then p.1
      else if t.tx_type ≠ TxType.Deposit then p.1
      else if t.tx_status ≠ TxStatus.Normal then p.1
      else
        let l2 := p.1.setAccount client (applyDispute p.2 t.amount)
        l2.setTxStatus tx TxStatus.Disputed

/-- Matches `apply_resolve` in `worker/handlers/resolve.rs`: mutates the
account and reports whether the move happened. -/
def applyResolve (acc : Account) (amount : Money) : Bool × Account :=
  if amount ≤ acc.held then
    (true, { acc with held := acc.held - amount, available := acc.available + amount })
  else (false, acc)

/-- Matches `resolve::handle` in `worker/handlers/resolve.rs` (check order:
locked, record exists, client matches, status Disputed, type Deposit). -/
def resolveHandle (l : Ledger) (client tx : Nat) : Ledger :=
  let p := l.getOrCreateAccount client
  if p.2.isLocked then p.1
  else
    match p.1.txs tx with
    | none => p.1
    | some t =>
      if t.client ≠ client then p.1
      else if t.tx_status ≠ TxStatus.Disputed then p.1
      else if t.tx_type ≠ TxType.Deposit then p.1
      else
        let br := applyResolve p.2 t.amount
        let l2 := p.1.setAccount client br.2
        if br.1 then l2.setTxStatus tx TxStatus.Resolved else l2

/-- Matches `apply_chargeback` in `worker/handlers/chargeback.rs`. -/
def applyChargeback (acc : Account) (amount : Money) : Bool × Account :=
  if amount ≤ acc.held then
    (true, { acc with held := acc.held - amount, locked := true })
  else (false, acc)

/-- Matches `chargeback::handle` in `worker/handlers/chargeback.rs` (check
order: locked, record exists, client matches, status Disputed, type
Deposit). -/
def chargebackHandle (l : Ledger) (client tx : Nat) : Ledger :=
  let p := l.getOrCreateAccount client
  if p.2.isLocked then p.1
  else
    match p.1.txs tx with
    | none => p.1
    | some t =>
      if t.client ≠ client then p.1
      else if t.tx_status ≠ TxStatus.Disputed then p.1
      else if t.tx_type ≠ TxType.Deposit then p.1
      else
        let br := applyChargeback p.2 t.amount
        let l2 := p.1.setAccount client br.2
        if br.1 then l2.setTxStatus tx TxStatus.ChargedBack else l2

/-- Pure view of one dispatch step: the ledger produced by the handler chosen
for the event, as in `Processor::process` (`worker/processor.rs`). -/
def step (l : Ledger) : TransactionEvent → Ledger
  | .Deposit client tx amount => depositHandle l client tx amount
  | .Withdrawal client tx amount => withdrawalHandle l client tx amount
  | .Dispute client tx => disputeHandle l client tx
  | .Resolve client tx => resolveHandle l client tx
  | .Chargeback client tx => chargebackHandle l client tx

/-- Matches `Processor::process` in `worker/processor.rs`: dispatch by event
variant; each handler's `Result` is `Ok` on every path, so each arm yields
`Except.ok`. -/
def Processor.process (l : Ledger) : TransactionEvent → Except AppError Ledger
  | .Deposit client tx amount => Except.ok (depositHandle l client tx amount)
  | .Withdrawal client tx amount => Except.ok (withdrawalHandle l client tx amount)
  | .Dispute client tx => Except.ok (disputeHandle l client tx)
  | .Resolve client tx => Except.ok (resolveHandle l client tx)
  | .Chargeback client tx => Except.ok (chargebackHandle l client tx)

/-- Processing a finite event sequence in arrival order (the app's single
processing loop). -/
def stepList (l : Ledger) (es : List TransactionEvent) : Ledger :=
  es.foldl step l

theorem process_eq_step (l : Ledger) (e : TransactionEvent) :
    Processor.process l e = Except.ok (step l e) := by
  cases e <;> rfl

/-- Modelled from the spec: the external `BigDecimal` value produced by
parsing decimal text, represented by its integer mantissa and its
non-negative decimal scale; the denoted value is `intVal / 10 ^ scale`.
(The `bigdecimal` crate itself is not part of this repository's sources.) -/
structure BigDec where
  intVal : Int
  scale : Nat
deriving DecidableEq

/-- Modelled from the spec: the digit-and-scale accumulation loop of decimal
text parsing.  `acc` is the mantissa read so far, `sc` the number of digits
seen after the decimal point; a second point or any non-digit character is a
parse failure, and at least one digit is required. -/
def parseDecCore : List Char → Nat → Nat → Bool → Bool → Option (Nat × Nat)
  | [], acc, sc, _, seenDigit => if seenDigit then some (acc, sc) else none
  | c :: rest, acc, sc, seenDot, seenDigit =>
    if c = '.' then
      if seenDot then none else parseDecCore rest acc sc true seenDigit
    else if c.isDigit then
      parseDecCore rest (10 * acc + (c.toNat - 48)) (if seenDot then sc + 1 else sc)
        seenDot true
    else none

/-- Modelled from the spec: parsing signed plain decimal text (optional sign,
digits, at most one decimal point) into a `BigDec`; fails on empty or
non-numeric input. -/
def parseBigDec (cs : List Char) : Option BigDec :=
  match cs with
  | '-' :: rest => (parseDecCore rest 0 0 false false).map (fun p => ⟨-(p.1 : Int), p.2⟩)
  | '+' :: rest => (parseDecCore rest 0 0 false false).map (fun p => ⟨(p.1 : Int), p.2⟩)
  | _ => (parseDecCore cs 0 0 false false).map (fun p => ⟨(p.1 : Int), p.2⟩)

/-- Smallest `i64` value. -/
def i64Min : Int := -(2 ^ 63)

/-- Largest `i64` value. -/
def i64Max : Int := 2 ^ 63 - 1

/-- Models `scaled.to_i64()` in `Money::from_str`: the rounded value if it
fits in `i64`, failure (`amount overflow`) otherwise. -/
def bigDecToI64 (v : Int) : Option Int :=
  if i64Min ≤ v ∧ v ≤ i64Max then some v else none

/-- Modelled from the spec: `BigDecimal::round(0)` on the mantissa/scale
pair, rounding to the nearest integer with ties away from zero — the
magnitude is truncated and bumped by one exactly when the first dropped
decimal digit is 5 or more. -/
def roundScaledToInt (m : Int) (sc : Nat) : Int :=
  if sc = 0 then m
  else if m < 0 then
    -((if m.natAbs / 10 ^ (sc - 1) % 10 ≤ 4 then m.natAbs / 10 ^ sc
       else m.natAbs / 10 ^ sc + 1 : Nat) : Int)
  else
    ((if m.natAbs / 10 ^ (sc - 1) % 10 ≤ 4 then m.natAbs / 10 ^ sc
      else m.natAbs / 10 ^ sc + 1 : Nat) : Int)

/-- Models `str::trim` on the character sequence: strip leading and trailing
whitespace. -/
def trimChars (cs : List Char) : List Char :=
  ((cs.dropWhile Char.isWhitespace).reverse.dropWhile Char.isWhitespace).reverse

/-- Matches `Money::from_str` in `common/money.rs`: trim, reject empty input,
parse the decimal text, multiply by the scale constant 10 000, round to 0
decimal places and convert to `i64` (failing on overflow). -/
def Money.fromStr (s : String) : Option Money :=
  let t := trimChars s.data
  if t.isEmpty then none
  else
    match parseBigDec t with
    | none => none
    | some bd => bigDecToI64 (roundScaledToInt (bd.intVal * 10000) bd.scale)

/-- Matches `Money::to_string_4dp` in `common/money.rs`: the value divided by
10 000 rendered with exactly four fractional digits.  The division
`BigDecimal::from(i64) / 10000` is exact with at most four fractional
digits, so the `{:.4}` formatting only zero-pads. -/
def Money.toString4dp (v : Money) : String :=
  let n := v.natAbs
  let frac := toString (n % 10000)
  (if v < 0 then "-" else "") ++ toString (n / 10000) ++ "." ++
    String.mk (List.replicate (4 - frac.length) '0') ++ frac

/-- The rational value denoted by a `BigDec`. -/
def BigDec.toRat (bd : BigDec) : ℚ := (bd.intVal : ℚ) / (10 : ℚ) ^ bd.scale

/-- Rounding to the nearest integer with ties away from zero, stated on the
exact rational value as the spec words it. -/
def roundHalfAwayQ (q : ℚ) : Int :=
  if 0 ≤ q then ⌊q + 1 / 2⌋ else -⌊-q + 1 / 2⌋

/-- Money parsing as the spec words it: the exact rational value of the text,
times 10 000, rounded to the nearest unit with ties away from zero; failing
exactly on empty/non-numeric input and on `i64` overflow. -/
def Money.fromStrSpec (s : String) : Option Money :=
  let t := trimChars s.data
  if t.isEmpty then none
  else
    match parseBigDec t with
    | none => none
    | some bd => bigDecToI64 (roundHalfAwayQ (bd.toRat * 10000))

theorem roundHalfAwayQ_intCast (m : Int) : roundHalfAwayQ (m : ℚ) = m := by
  unfold roundHalfAwayQ
  by_cases h : (0 : ℚ) ≤ (m : ℚ)
  · rw [if_pos h, Int.floor_int_add]
    norm_num
  · rw [if_neg h]
    rw [show -((m : ℚ)) = ((-m : ℤ) : ℚ) by push_cast; ring, Int.floor_int_add]
    have : ⌊(1 / 2 : ℚ)⌋ = 0 := by norm_num
    rw [this]
    ring

theorem round_mag_eq (n sc : Nat) (hsc : sc ≠ 0) :
    ((if n / 10 ^ (sc - 1) % 10 ≤ 4 then n / 10 ^ sc else n / 10 ^ sc + 1 : Nat) : Int)
      = ⌊(n : ℚ) / (10 : ℚ) ^ sc + 1 / 2⌋ := by
  obtain ⟨k, rfl⟩ : ∃ k, sc = k + 1 := ⟨sc - 1, by omega⟩
  have hqpow : ((10 : ℚ)) ^ (k + 1) = (((10 : Nat) ^ (k + 1) : Nat) : ℚ) := by push_cast; ring
  rw [hqpow]
  simp only [Nat.add_sub_cancel]
  have hh10pos : 0 < (10 : Nat) ^ k := pow_pos (by norm_num) k
  have hrel : (10 : Nat) ^ (k + 1) = 10 * 10 ^ k := by rw [pow_succ]; ring
  generalize hh10g : (10 : Nat) ^ k = h10 at *
  generalize hdg : (10 : Nat) ^ (k + 1) = d at *
  have hdpos : 0 < d := by omega
  obtain ⟨q, r, hrlt, hn⟩ : ∃ q r, r < d ∧ n = r + d * q :=
    ⟨n / d, n % d, Nat.mod_lt _ hdpos, by
      have := Nat.div_add_mod n d
      omega⟩
  have hq : n / d = q := by
    rw [hn, Nat.add_mul_div_left _ _ hdpos, Nat.div_eq_of_lt hrlt]
    omega
  have hrdiv : r / h10 < 10 := (Nat.div_lt_iff_lt_mul hh10pos).mpr (by omega)
  have hdigit : n / h10 % 10 = r / h10 := by
    rw [hn, hrel, show r + 10 * h10 * q = r + h10 * (10 * q) by ring,
      Nat.add_mul_div_left _ _ hh10pos,
      show r / h10 + 10 * q = r / h10 + q * 10 by ring,
      Nat.add_mul_mod_self_right]
    exact Nat.mod_eq_of_lt hrdiv
  have hdq0 : ((d : Nat) : ℚ) ≠ 0 := Nat.cast_ne_zero.mpr (by omega)
  have hcast : (n : ℚ) / ((d : Nat) : ℚ) + 1 / 2
      = ((2 * n + d : Nat) : ℚ) / ((2 * d : Nat) : ℚ) := by
    push_cast
    field_simp
    ring
  rw [hcast, Rat.floor_natCast_div_natCast, ← Int.natCast_div]
  have hsplit : (2 * n + d) / (2 * d) = (2 * r + d) / (2 * d) + q := by
    rw [hn, show 2 * (r + d * q) + d = 2 * r + d + 2 * d * q by ring,
      Nat.add_mul_div_left _ _ (by omega : 0 < 2 * d)]
  by_cases hcase : 2 * r < d
  · have h1 : (2 * r + d) / (2 * d) = 0 := Nat.div_eq_of_lt (by omega)
    have hdig : r / h10 ≤ 4 := by
      have h5 : r / h10 < 5 := (Nat.div_lt_iff_lt_mul hh10pos).mpr (by omega)
      omega
    rw [hdigit, if_pos hdig, hq, hsplit, h1]
    push_cast
    ring
  · have h1 : (2 * r + d) / (2 * d) = 1 := by
      have h2d : 0 < 2 * d := by omega
      have hlow : 1 ≤ (2 * r + d) / (2 * d) :=
        (Nat.le_div_iff_mul_le h2d).mpr (by omega)
      have hhigh : (2 * r + d) / (2 * d) < 2 :=
        (Nat.div_lt_iff_lt_mul h2d).mpr (by omega)
      omega
    have hdig : ¬ r / h10 ≤ 4 := by
      have h5 : 5 ≤ r / h10 := (Nat.le_div_iff_mul_le hh10pos).mpr (by omega)
      omega
    rw [hdigit, if_neg hdig, hq, hsplit, h1]
    push_cast
    ring

theorem roundScaled_eq (m : Int) (sc : Nat) :
    roundScaledToInt m sc = roundHalfAwayQ ((m : ℚ) / (10 : ℚ) ^ sc) := by
  unfold roundScaledToInt
  by_cases hsc : sc = 0
  · subst hsc
    simp [roundHalfAwayQ_intCast]
  · rw [if_neg hsc]
    by_cases hm : m < 0
    · rw [if_pos hm]
      have hpow : (0 : ℚ) < (10 : ℚ) ^ sc := by positivity
      have hmq : ((m : ℚ)) < 0 := by exact_mod_cast hm
      have hq' : ¬ (0 ≤ (m : ℚ) / (10 : ℚ) ^ sc) :=
        not_le.mpr (div_neg_of_neg_of_pos hmq hpow)
      unfold roundHalfAwayQ
      rw [if_neg hq']
      have hnabs : ((m.natAbs : ℚ)) = -(m : ℚ) := by
        rw [Int.cast_natAbs]
        exact_mod_cast abs_of_neg hm
      rw [show -((m : ℚ) / (10 : ℚ) ^ sc) = (m.natAbs : ℚ) / (10 : ℚ) ^ sc by
        rw [hnabs]; ring]
      rw [← round_mag_eq m.natAbs sc hsc]
    · rw [if_neg hm]
      have hm0 : 0 ≤ m := le_of_not_lt hm
      have hq' : 0 ≤ (m : ℚ) / (10 : ℚ) ^ sc := by
        apply div_nonneg
        · exact_mod_cast hm0
        · positivity
      unfold roundHalfAwayQ
      rw [if_pos hq']
      have hnabs : ((m.natAbs : ℚ)) = (m : ℚ) := by
        rw [Int.cast_natAbs]
        exact_mod_cast abs_of_nonneg hm0
      rw [show (m : ℚ) / (10 : ℚ) ^ sc = (m.natAbs : ℚ) / (10 : ℚ) ^ sc by rw [hnabs]]
      rw [← round_mag_eq m.natAbs sc hsc]

theorem fromStr_eq_fromStrSpec (s : String) : Money.fromStr s = Money.fromStrSpec s := by
  show (if (trimChars s.data).isEmpty then none
        else match parseBigDec (trimChars s.data) with
          | none => none
          | some bd => bigDecToI64 (roundScaledToInt (bd.intVal * 10000) bd.scale))
      = (if (trimChars s.data).isEmpty then none
        else match parseBigDec (trimChars s.data) with
          | none => none
          | some bd => bigDecToI64 (roundHalfAwayQ (bd.toRat * 10000)))
  by_cases he : (trimChars s.data).isEmpty
  · rw [if_pos he, if_pos he]
  · rw [if_neg he, if_neg he]
    cases hp : parseBigDec (trimChars s.data) with
    | none => rfl
    | some bd =>
      have key : roundScaledToInt (bd.intVal * 10000) bd.scale
          = roundHalfAwayQ (bd.toRat * 10000) := by
        rw [roundScaled_eq]
        congr 1
        unfold BigDec.toRat
        push_cast
        ring
      show bigDecToI64 (roundScaledToInt (bd.intVal * 10000) bd.scale)
          = bigDecToI64 (roundHalfAwayQ (bd.toRat * 10000))
      rw [key]

theorem getOrCreate_txs (l : Ledger) (c : Nat) :
    (l.getOrCreateAccount c).1.txs = l.txs := by
  unfold Ledger.getOrCreateAccount
  cases l.accounts c <;> rfl

theorem getOrCreate_acct (l : Ledger) (c : Nat) :
    (l.getOrCreateAccount c).2 = l.acctOrNew c := by
  unfold Ledger.getOrCreateAccount Ledger.acctOrNew
  cases l.accounts c <;> rfl

theorem getOrCreate_accounts_self (l : Ledger) (c : Nat) :
    (l.getOrCreateAccount c).1.accounts c = some (l.acctOrNew c) := by
  unfold Ledger.getOrCreateAccount Ledger.acctOrNew
  cases h : l.accounts c <;> simp [h]

theorem getOrCreate_accounts (l : Ledger) (c c' : Nat) :
    (l.getOrCreateAccount c).1.accounts c' = l.accounts c'
      ∨ (c' = c ∧ l.accounts c' = none
         ∧ (l.getOrCreateAccount c).1.accounts c' = some Account.new) := by
  unfold Ledger.getOrCreateAccount
  cases h : l.accounts c with
  | some a => exact Or.inl rfl
  | none =>
    by_cases hc : c' = c
    · subst hc
      exact Or.inr ⟨rfl, h, by simp⟩
    · left
      simp [hc]

theorem getOrCreate_of_some (l : Ledger) (c : Nat) (a : Account)
    (h : l.accounts c = some a) : l.getOrCreateAccount c = (l, a) := by
  unfold Ledger.getOrCreateAccount
  rw [h]

/-- Claim C1: once an account is locked, no subsequent event for that client
changes the account's `available` or `held` balance (the stored account is
unchanged), nor the status of any transaction record (the whole transaction
map is unchanged). -/
theorem claim_C1_locked_account_inert (l : Ledger) (c : Nat) (a : Account)
    (e : TransactionEvent) (hacc : l.accounts c = some a) (hlock : a.locked = true)
    (hc : e.client = c) :
    (step l e).accounts c = some a ∧ ∀ t, (step l e).txs t = l.txs t := by
  have hstep : step l e = l := by
    cases e <;>
      simp_all [step, TransactionEvent.client, depositHandle, withdrawalHandle,
        disputeHandle, resolveHandle, chargebackHandle,
        getOrCreate_of_some l c a hacc, Account.isLocked]
  rw [hstep]
  exact ⟨hacc, fun _ => rfl⟩

/-- Ledger with one locked account, used to instantiate C1. -/
def lockedLedgerW : Ledger :=
  ⟨fun c => if c = 1 then some ⟨3, 4, true⟩ else none, fun _ => none⟩

theorem claim_C1_witness :
    (step lockedLedgerW (TransactionEvent.Deposit 1 9 5)).accounts 1 = some ⟨3, 4, true⟩ :=
  (claim_C1_locked_account_inert lockedLedgerW 1 ⟨3, 4, true⟩
    (TransactionEvent.Deposit 1 9 5) (by decide) rfl rfl).1

/-- Claim C3: a withdrawal on an existing unlocked account with a fresh tx id
debits `available` by the amount exactly when `available ≥ amount` and leaves
the balances unchanged otherwise, and in both cases inserts a `Normal`
`Withdrawal` record carrying the requested amount and client. -/
theorem claim_C3_withdrawal (l : Ledger) (c t : Nat) (amt : Money) (a : Account)
    (hacc : l.accounts c = some a) (hunlocked : a.locked = false)
    (hfresh : l.txs t = none) :
    (if amt ≤ a.available then
        (withdrawalHandle l c t amt).accounts c
          = some { a with available := a.available - amt }
      else (withdrawalHandle l c t amt).accounts c = some a)
      ∧ (withdrawalHandle l c t amt).txs t
          = some ⟨t, c, amt, TxType.Withdrawal, TxStatus.Normal⟩ := by
  have hred : withdrawalHandle l c t amt
      = (l.setAccount c (applyWithdrawal a amt)).insertTx t
          ⟨t, c, amt, TxType.Withdrawal, TxStatus.Normal⟩ := by
    simp [withdrawalHandle, getOrCreate_of_some l c a hacc, Account.isLocked,
      hunlocked, hfresh]
  rw [hred]
  constructor
  · by_cases hav : amt ≤ a.available <;>
      simp [hav, Ledger.insertTx, Ledger.setAccount, applyWithdrawal]
  · simp [Ledger.insertTx]

/-- Ledger with one funded unlocked account, used to instantiate C3. -/
def fundedLedgerW : Ledger :=
  ⟨fun c => if c = 1 then some ⟨100, 0, false⟩ else none, fun _ => none⟩

theorem claim_C3_witness :
    ((100 : Money) - 40 = 60)
      ∧ (withdrawalHandle fundedLedgerW 1 10 40).txs 10
        = some ⟨10, 1, 40, TxType.Withdrawal, TxStatus.Normal⟩ := by
  have h := claim_C3_withdrawal fundedLedgerW 1 10 40 ⟨100, 0, false⟩
    (by decide) rfl rfl
  exact ⟨by decide, h.2⟩

/-- Claim C6: deposit(1,1,1.0), dispute(1,1), resolve(1,1) from the empty
ledger yields account 1 with available 1.0000, held 0.0000, unlocked, and
transaction 1 Resolved ("1.0" parses to the scaled integer 10000, which
formats as "1.0000"). -/
theorem claim_C6_scenario :
    Money.fromStr "1.0" = some 10000
      ∧ (stepList Ledger.new
          [TransactionEvent.Deposit 1 1 10000, TransactionEvent.Dispute 1 1,
            TransactionEvent.Resolve 1 1]).accounts 1 = some ⟨10000, 0, false⟩
      ∧ (stepList Ledger.new
          [TransactionEvent.Deposit 1 1 10000, TransactionEvent.Dispute 1 1,
            TransactionEvent.Resolve 1 1]).txs 1
        = some ⟨1, 1, 10000, TxType.Deposit, TxStatus.Resolved⟩
      ∧ Money.toString4dp 10000 = "1.0000"
      ∧ Money.toString4dp 0 = "0.0000" := by
  refine ⟨by decide, by decide, by decide, by decide, by decide⟩

/-- Claim C8: a Deposit or Withdrawal event whose tx id is already recorded
leaves every account's balances and locked flag unchanged (where an absent
account counts as the fresh zero account it would lazily receive) and leaves
the whole transaction map — in particular the original record — unchanged. -/
theorem claim_C8_duplicate_tx (l : Ledger) (c t : Nat) (amt : Money)
    (r : TransactionRecord) (hdup : l.txs t = some r) (e : TransactionEvent)
    (he : e = TransactionEvent.Deposit c t amt ∨ e = TransactionEvent.Withdrawal c t amt) :
    (∀ c', (step l e).acctOrNew c' = l.acctOrNew c')
      ∧ (step l e).txs t = some r
      ∧ ∀ t', (step l e).txs t' = l.txs t' := by
  have hkey : ∀ c', (step l e).accounts c' = (l.getOrCreateAccount c).1.accounts c' ∧
      (step l e).txs = l.txs := by
    intro c'
    rcases he with rfl | rfl <;>
    · constructor
      · simp only [step, depositHandle, withdrawalHandle]
        by_cases hl : (l.getOrCreateAccount c).2.isLocked <;>
          simp [hl, getOrCreate_txs, hdup]
      · simp only [step, depositHandle, withdrawalHandle]
        by_cases hl : (l.getOrCreateAccount c).2.isLocked <;>
          simp [hl, getOrCreate_txs, hdup]
  refine ⟨?_, ?_, ?_⟩
  · intro c'
    unfold Ledger.acctOrNew
    rw [(hkey c').1]
    rcases getOrCreate_accounts l c c' with h | ⟨hc, hnone, h⟩
    · rw [h]
    · rw [h, hnone]
      rfl
  · rw [(hkey t).2, hdup]
  · intro t'
    rw [(hkey t').2]

/-- Ledger with one recorded deposit, used to instantiate C8. -/
def recordedLedgerW : Ledger :=
  ⟨fun c => if c = 1 then some ⟨10000, 0, false⟩ else none,
   fun t => if t = 1 then some ⟨1, 1, 10000, TxType.Deposit, TxStatus.Normal⟩ else none⟩

theorem claim_C8_witness :
    (step recordedLedgerW (TransactionEvent.Deposit 1 1 90000)).txs 1
      = some ⟨1, 1, 10000, TxType.Deposit, TxStatus.Normal⟩ :=
  (claim_C8_duplicate_tx recordedLedgerW 1 1 90000
    ⟨1, 1, 10000, TxType.Deposit, TxStatus.Normal⟩ (by decide)
    (TransactionEvent.Deposit 1 1 90000) (Or.inl rfl)).2.1

/-- Claim C4 counterexample: a Dispute whose conditions fail (the referenced
transaction does not exist) still mutates the ledger, because the handler's
lock check lazily creates the client's account before any other check. -/
theorem claim_C4_counterexample :
    Ledger.new.txs 5 = none ∧ Ledger.new.accounts 2 = none
      ∧ (disputeHandle Ledger.new 2 5).accounts 2 = some Account.new := by
  refine ⟨rfl, rfl, by decide⟩

/-- Claim C4 (amended): a Dispute mutates balances and statuses exactly when
the target account (absent counting as fresh and unlocked) is unlocked, the
record exists with matching client, type Deposit and status exactly Normal;
then `amount` moves from `available` to `held` unconditionally and the status
becomes Disputed, all else unchanged.  In every other case balances, flags
and the transaction map are unchanged — the only possible change is the lazy
creation of a zero-balance unlocked account for the event's client. -/
theorem claim_C4_dispute (l : Ledger) (c t : Nat) :
    (∀ r, (l.acctOrNew c).locked = false → l.txs t = some r → r.client = c →
      r.tx_type = TxType.Deposit → r.tx_status = TxStatus.Normal →
      (disputeHandle l c t).accounts c
          = some { l.acctOrNew c with
              available := (l.acctOrNew c).available - r.amount,
              held := (l.acctOrNew c).held + r.amount }
        ∧ (disputeHandle l c t).txs t = some { r with tx_status := TxStatus.Disputed }
        ∧ (∀ c', c' ≠ c → (disputeHandle l c t).accounts c' = l.accounts c')
        ∧ (∀ t', t' ≠ t → (disputeHandle l c t).txs t' = l.txs t'))
      ∧ (¬ ((l.acctOrNew c).locked = false ∧ ∃ r, l.txs t = some r ∧ r.client = c
              ∧ r.tx_type = TxType.Deposit ∧ r.tx_status = TxStatus.Normal) →
        (∀ t', (disputeHandle l c t).txs t' = l.txs t')
          ∧ ∀ c', (disputeHandle l c t).accounts c' = l.accounts c'
              ∨ (c' = c ∧ l.accounts c' = none
                 ∧ (disputeHandle l c t).accounts c' = some Account.new)) := by
  constructor
  · intro r hul hr hcl hty hst
    have hred : disputeHandle l c t
        = ((l.getOrCreateAccount c).1.setAccount c
            (applyDispute (l.acctOrNew c) r.amount)).setTxStatus t TxStatus.Disputed := by
      simp [disputeHandle, getOrCreate_acct, getOrCreate_txs, Account.isLocked, hul,
        hr, hcl, hty, hst]
    rw [hred]
    refine ⟨?_, ?_, ?_, ?_⟩
    · simp [Ledger.setTxStatus, Ledger.setAccount, applyDispute]
    · simp [Ledger.setTxStatus, Ledger.setAccount, getOrCreate_txs, hr]
    · intro c' hc'
      have := getOrCreate_accounts l c c'
      simp only [Ledger.setTxStatus, Ledger.setAccount, hc', if_neg hc']
      rcases this with h | ⟨hceq, _, _⟩
      · exact h
      · exact absurd hceq hc'
    · intro t' ht'
      simp [Ledger.setTxStatus, Ledger.setAccount, getOrCreate_txs, ht']
  · intro hfail
    have hret : disputeHandle l c t = (l.getOrCreateAccount c).1 := by
      by_cases hl : (l.acctOrNew c).locked
      · simp [disputeHandle, getOrCreate_acct, Account.isLocked, hl]
      · cases ht : l.txs t with
        | none => simp [disputeHandle, getOrCreate_acct, getOrCreate_txs,
            Account.isLocked, hl, ht]
        | some r =>
          have hcases : r.client ≠ c ∨ r.tx_type ≠ TxType.Deposit
              ∨ r.tx_status ≠ TxStatus.Normal := by
            by_contra hcon
            push_neg at hcon
            exact hfail ⟨by simp [hl], r, ht, hcon.1, hcon.2.1, hcon.2.2⟩
          rcases hcases with h | h | h <;>
            simp [disputeHandle, getOrCreate_acct, getOrCreate_txs,
              Account.isLocked, hl, ht, h]
    rw [hret]
    refine ⟨fun t' => by rw [getOrCreate_txs], fun c' => getOrCreate_accounts l c c'⟩

/-- Ledger with a disputable recorded deposit, used to instantiate C4. -/
def disputableLedgerW : Ledger :=
  ⟨fun c => if c = 1 then some ⟨10, 0, false⟩ else none,
   fun t => if t = 7 then some ⟨7, 1, 4, TxType.Deposit, TxStatus.Normal⟩ else none⟩

theorem claim_C4_witness :
    (disputeHandle disputableLedgerW 1 7).accounts 1 = some ⟨6, 4, false⟩
      ∧ (disputeHandle disputableLedgerW 1 7).txs 7
        = some ⟨7, 1, 4, TxType.Deposit, TxStatus.Disputed⟩ := by
  have h := (claim_C4_dispute disputableLedgerW 1 7).1
    ⟨7, 1, 4, TxType.Deposit, TxStatus.Normal⟩ (by decide) (by decide) rfl rfl rfl
  exact ⟨h.1, h.2.1⟩

/-- Claim C5: a Chargeback whose preconditions hold (account unlocked, record
exists with matching client, type Deposit, status exactly Disputed) debits
`held` by the amount, locks the account and marks the record ChargedBack when
`held ≥ amount`; when `held < amount` the stored account (balances, flag,
still unlocked) and the record (still Disputed) are unchanged. -/
theorem claim_C5_chargeback (l : Ledger) (c t : Nat) (r : TransactionRecord)
    (hr : l.txs t = some r) (hcl : r.client = c) (hty : r.tx_type = TxType.Deposit)
    (hst : r.tx_status = TxStatus.Disputed) (hul : (l.acctOrNew c).locked = false) :
    (if r.amount ≤ (l.acctOrNew c).held then
        (chargebackHandle l c t).accounts c
            = some { l.acctOrNew c with
                held := (l.acctOrNew c).held - r.amount, locked := true }
          ∧ (chargebackHandle l c t).txs t
            = some { r with tx_status := TxStatus.ChargedBack }
      else
        (chargebackHandle l c t).accounts c = some (l.acctOrNew c)
          ∧ (chargebackHandle l c t).txs t = some r) := by
  have hred : chargebackHandle l c t
      = (let br := applyChargeback (l.acctOrNew c) r.amount
         let l2 := (l.getOrCreateAccount c).1.setAccount c br.2
         if br.1 then l2.setTxStatus t TxStatus.ChargedBack else l2) := by
    simp [chargebackHandle, getOrCreate_acct, getOrCreate_txs, Account.isLocked,
      hul, hr, hcl, hty, hst]
  by_cases hheld : r.amount ≤ (l.acctOrNew c).held
  · rw [if_pos hheld, hred]
    simp only [applyChargeback, if_pos hheld]
    constructor
    · simp [Ledger.setTxStatus, Ledger.setAccount]
    · simp [Ledger.setTxStatus, Ledger.setAccount, getOrCreate_txs, hr]
  · rw [if_neg hheld, hred]
    simp only [applyChargeback, if_neg hheld]
    constructor
    · simp [Ledger.setAccount]
    · simp [Ledger.setAccount, getOrCreate_txs, hr]

/-- Ledger with a disputed recorded deposit and held funds, used to
instantiate C5. -/
def disputedLedgerW : Ledger :=
  ⟨fun c => if c = 1 then some ⟨0, 4, false⟩ else none,
   fun t => if t = 7 then some ⟨7, 1, 4, TxType.Deposit, TxStatus.Disputed⟩ else none⟩

theorem claim_C5_witness :
    (chargebackHandle disputedLedgerW 1 7).accounts 1 = some ⟨0, 0, true⟩
      ∧ (chargebackHandle disputedLedgerW 1 7).txs 7
        = some ⟨7, 1, 4, TxType.Deposit, TxStatus.ChargedBack⟩ := by
  have h := claim_C5_chargeback disputedLedgerW 1 7
    ⟨7, 1, 4, TxType.Deposit, TxStatus.Disputed⟩ (by decide) rfl rfl rfl (by decide)
  rw [if_pos (by decide)] at h
  exact h

/-- The amount carried by a Deposit or Withdrawal event (0 for the
reference-only events). -/
def TransactionEvent.amountOf : TransactionEvent → Money
  | .Deposit _ _ a => a
  | .Withdrawal _ _ a => a
  | _ => 0

/-- The business-rule violations enumerated by the spec, as a decidable check
on the current ledger: duplicate tx id for Deposit/Withdrawal; a
Dispute/Resolve/Chargeback referencing a non-existent, foreign-client,
non-deposit or wrongly-statused transaction; Resolve/Chargeback with
insufficient held funds; any event against a locked account. -/
def isViolation (l : Ledger) : TransactionEvent → Bool
  | .Deposit c t _ => (l.acctOrNew c).locked || (l.txs t).isSome
  | .Withdrawal c t _ => (l.acctOrNew c).locked || (l.txs t).isSome
  | .Dispute c t =>
    (l.acctOrNew c).locked ||
      match l.txs t with
      | none => true
      | some r =>
        if r.client = c ∧ r.tx_type = TxType.Deposit ∧ r.tx_status = TxStatus.Normal
        then false else true
  | .Resolve c t =>
    (l.acctOrNew c).locked ||
      match l.txs t with
      | none => true
      | some r =>
        if r.client = c ∧ r.tx_type = TxType.Deposit ∧ r.tx_status = TxStatus.Disputed
        then decide ((l.acctOrNew c).held < r.amount) else true
  | .Chargeback c t =>
    (l.acctOrNew c).locked ||
      match l.txs t with
      | none => true
      | some r =>
        if r.client = c ∧ r.tx_type = TxType.Deposit ∧ r.tx_status = TxStatus.Disputed
        then decide ((l.acctOrNew c).held < r.amount) else true

theorem depositHandle_noop (l : Ledger) (c t : Nat) (amt : Money)
    (h : (l.acctOrNew c).locked = true ∨ (l.txs t).isSome = true) :
    depositHandle l c t amt = (l.getOrCreateAccount c).1 := by
  by_cases hl : (l.acctOrNew c).locked
  · simp [depositHandle, getOrCreate_acct, Account.isLocked, hl]
  · have hd : (l.txs t).isSome = true := by tauto
    simp [depositHandle, getOrCreate_acct, getOrCreate_txs, Account.isLocked, hl, hd]

theorem withdrawalHandle_noop (l : Ledger) (c t : Nat) (amt : Money)
    (h : (l.acctOrNew c).locked = true ∨ (l.txs t).isSome = true) :
    withdrawalHandle l c t amt = (l.getOrCreateAccount c).1 := by
  by_cases hl : (l.acctOrNew c).locked
  · simp [withdrawalHandle, getOrCreate_acct, Account.isLocked, hl]
  · have hd : (l.txs t).isSome = true := by tauto
    simp [withdrawalHandle, getOrCreate_acct, getOrCreate_txs, Account.isLocked, hl, hd]

theorem disputeHandle_noop (l : Ledger) (c t : Nat)
    (hfail : ¬ ((l.acctOrNew c).locked = false ∧ ∃ r, l.txs t = some r ∧ r.client = c
        ∧ r.tx_type = TxType.Deposit ∧ r.tx_status = TxStatus.Normal)) :
    disputeHandle l c t = (l.getOrCreateAccount c).1 := by
  by_cases hl : (l.acctOrNew c).locked
  · simp [disputeHandle, getOrCreate_acct, Account.isLocked, hl]
  · cases ht : l.txs t with
    | none => simp [disputeHandle, getOrCreate_acct, getOrCreate_txs,
        Account.isLocked, hl, ht]
    | some r =>
      have hcases : r.client ≠ c ∨ r.tx_type ≠ TxType.Deposit
          ∨ r.tx_status ≠ TxStatus.Normal := by
        by_contra hcon
        push_neg at hcon
        exact hfail ⟨by simp [hl], r, ht, hcon.1, hcon.2.1, hcon.2.2⟩
      rcases hcases with h | h | h <;>
        simp [disputeHandle, getOrCreate_acct, getOrCreate_txs, Account.isLocked,
          hl, ht, h]

theorem resolveHandle_early (l : Ledger) (c t : Nat)
    (hfail : ¬ ((l.acctOrNew c).locked = false ∧ ∃ r, l.txs t = some r ∧ r.client = c
        ∧ r.tx_type = TxType.Deposit ∧ r.tx_status = TxStatus.Disputed)) :
    resolveHandle l c t = (l.getOrCreateAccount c).1 := by
  by_cases hl : (l.acctOrNew c).locked
  · simp [resolveHandle, getOrCreate_acct, Account.isLocked, hl]
  · cases ht : l.txs t with
    | none => simp [resolveHandle, getOrCreate_acct, getOrCreate_txs,
        Account.isLocked, hl, ht]
    | some r =>
      have hcases : r.client ≠ c ∨ r.tx_status ≠ TxStatus.Disputed
          ∨ r.tx_type ≠ TxType.Deposit := by
        by_contra hcon
        push_neg at hcon
        exact hfail ⟨by simp [hl], r, ht, hcon.1, hcon.2.2, hcon.2.1⟩
      rcases hcases with h | h | h
      · simp [resolveHandle, getOrCreate_acct, getOrCreate_txs, Account.isLocked,
          hl, ht, h]
      · simp [resolveHandle, getOrCreate_acct, getOrCreate_txs, Account.isLocked,
          hl, ht, h]
      · by_cases hst : r.tx_status = TxStatus.Disputed <;>
          simp [resolveHandle, getOrCreate_acct, getOrCreate_txs, Account.isLocked,
            hl, ht, h, hst]

theorem resolveHandle_insufficient (l : Ledger) (c t : Nat) (r : TransactionRecord)
    (hr : l.txs t = some r) (hcl : r.client = c) (hty : r.tx_type = TxType.Deposit)
    (hst : r.tx_status = TxStatus.Disputed) (hul : (l.acctOrNew c).locked = false)
    (hheld : ¬ r.amount ≤ (l.acctOrNew c).held) :
    resolveHandle l c t = (l.getOrCreateAccount c).1.setAccount c (l.acctOrNew c) := by
  simp [resolveHandle, getOrCreate_acct, getOrCreate_txs, Account.isLocked, hul,
    hr, hcl, hty, hst, applyResolve, hheld]

theorem chargebackHandle_early (l : Ledger) (c t : Nat)
    (hfail : ¬ ((l.acctOrNew c).locked = false ∧ ∃ r, l.txs t = some r ∧ r.client = c
        ∧ r.tx_type = TxType.Deposit ∧ r.tx_status = TxStatus.Disputed)) :
    chargebackHandle l c t = (l.getOrCreateAccount c).1 := by
  by_cases hl : (l.acctOrNew c).locked
  · simp [chargebackHandle, getOrCreate_acct, Account.isLocked, hl]
  · cases ht : l.txs t with
    | none => simp [chargebackHandle, getOrCreate_acct, getOrCreate_txs,
        Account.isLocked, hl, ht]
    | some r =>
      have hcases : r.client ≠ c ∨ r.tx_status ≠ TxStatus.Disputed
          ∨ r.tx_type ≠ TxType.Deposit := by
        by_contra hcon
        push_neg at hcon
        exact hfail ⟨by simp [hl], r, ht, hcon.1, hcon.2.2, hcon.2.1⟩
      rcases hcases with h | h | h
      · simp [chargebackHandle, getOrCreate_acct, getOrCreate_txs, Account.isLocked,
          hl, ht, h]
      · simp [chargebackHandle, getOrCreate_acct, getOrCreate_txs, Account.isLocked,
          hl, ht, h]
      · by_cases hst : r.tx_status = TxStatus.Disputed <;>
          simp [chargebackHandle, getOrCreate_acct, getOrCreate_txs, Account.isLocked,
            hl, ht, h, hst]

theorem chargebackHandle_insufficient (l : Ledger) (c t : Nat) (r : TransactionRecord)
    (hr : l.txs t = some r) (hcl : r.client = c) (hty : r.tx_type = TxType.Deposit)
    (hst : r.tx_status = TxStatus.Disputed) (hul : (l.acctOrNew c).locked = false)
    (hheld : ¬ r.amount ≤ (l.acctOrNew c).held) :
    chargebackHandle l c t = (l.getOrCreateAccount c).1.setAccount c (l.acctOrNew c) := by
  simp [chargebackHandle, getOrCreate_acct, getOrCreate_txs, Account.isLocked, hul,
    hr, hcl, hty, hst, applyChargeback, hheld]

/-- Frame facts for the account-writeback shape reached on the
insufficient-held-funds paths. -/
theorem writeback_frame (l : Ledger) (c : Nat) :
    (∀ t', ((l.getOrCreateAccount c).1.setAccount c (l.acctOrNew c)).txs t' = l.txs t')
      ∧ ∀ c', ((l.getOrCreateAccount c).1.setAccount c (l.acctOrNew c)).accounts c'
            = l.accounts c'
          ∨ (c' = c ∧ l.accounts c' = none
             ∧ ((l.getOrCreateAccount c).1.setAccount c (l.acctOrNew c)).accounts c'
               = some Account.new) := by
  constructor
  · intro t'
    simp only [Ledger.setAccount]
    rw [getOrCreate_txs]
  · intro c'
    by_cases hc : c' = c
    · subst hc
      cases ha : l.accounts c' with
      | some a =>
        left
        simp [Ledger.setAccount, Ledger.acctOrNew, ha]
      | none =>
        right
        exact ⟨rfl, rfl, by simp [Ledger.setAccount, Ledger.acctOrNew, ha]⟩
    · simp only [Ledger.setAccount, if_neg hc]
      rcases getOrCreate_accounts l c c' with h | ⟨hceq, _, _⟩
      · exact Or.inl h
      · exact absurd hceq hc

/-- Claim C2 counterexample: a business-rule-violating event (a Dispute
referencing a non-existent transaction) does not leave the client-to-Account
mapping exactly unchanged — the handler lazily creates the client's
account. -/
theorem claim_C2_counterexample :
    isViolation Ledger.new (TransactionEvent.Dispute 1 1) = true
      ∧ Processor.process Ledger.new (TransactionEvent.Dispute 1 1)
        = Except.ok (step Ledger.new (TransactionEvent.Dispute 1 1))
      ∧ Ledger.new.accounts 1 = none
      ∧ (step Ledger.new (TransactionEvent.Dispute 1 1)).accounts 1 = some Account.new := by
  refine ⟨by decide, rfl, rfl, by decide⟩

/-- Claim C2 (amended): every business-rule-violating event is resolved as a
successful no-op: the processor returns success, the transaction map is
exactly unchanged, and every account is unchanged — except that a fresh
zero-balance unlocked account may be lazily created for the event's client.
Processing of subsequent events therefore continues. -/
theorem claim_C2_violation_noop (l : Ledger) (e : TransactionEvent)
    (h : isViolation l e = true) :
    Processor.process l e = Except.ok (step l e)
      ∧ (∀ t, (step l e).txs t = l.txs t)
      ∧ ∀ c, (step l e).accounts c = l.accounts c
          ∨ (c = e.client ∧ l.accounts c = none
             ∧ (step l e).accounts c = some Account.new) := by
  refine ⟨process_eq_step l e, ?_⟩
  have base : ∀ c : Nat, (step l e) = (l.getOrCreateAccount c).1 →
      (∀ t, (step l e).txs t = l.txs t)
        ∧ ∀ c', (step l e).accounts c' = l.accounts c'
            ∨ (c' = c ∧ l.accounts c' = none
               ∧ (step l e).accounts c' = some Account.new) := by
    intro c hc
    rw [hc]
    exact ⟨fun t => by rw [getOrCreate_txs], fun c' => getOrCreate_accounts l c c'⟩
  cases e with
  | Deposit c t amt =>
    have hv : (l.acctOrNew c).locked = true ∨ (l.txs t).isSome = true := by
      simpa [isViolation] using h
    have := base c (depositHandle_noop l c t amt hv)
    refine ⟨this.1, fun c' => ?_⟩
    rcases this.2 c' with h' | ⟨hceq, hnone, hnew⟩
    · exact Or.inl h'
    · exact Or.inr ⟨hceq, hnone, hnew⟩
  | Withdrawal c t amt =>
    have hv : (l.acctOrNew c).locked = true ∨ (l.txs t).isSome = true := by
      simpa [isViolation] using h
    have := base c (withdrawalHandle_noop l c t amt hv)
    refine ⟨this.1, fun c' => ?_⟩
    rcases this.2 c' with h' | ⟨hceq, hnone, hnew⟩
    · exact Or.inl h'
    · exact Or.inr ⟨hceq, hnone, hnew⟩
  | Dispute c t =>
    have hfail : ¬ ((l.acctOrNew c).locked = false ∧ ∃ r, l.txs t = some r
        ∧ r.client = c ∧ r.tx_type = TxType.Deposit ∧ r.tx_status = TxStatus.Normal) := by
      rintro ⟨hul, r, ht, hcl, hty, hst⟩
      simp [isViolation, hul, ht, hcl, hty, hst] at h
    have := base c (disputeHandle_noop l c t hfail)
    refine ⟨this.1, fun c' => ?_⟩
    rcases this.2 c' with h' | ⟨hceq, hnone, hnew⟩
    · exact Or.inl h'
    · exact Or.inr ⟨hceq, hnone, hnew⟩
  | Resolve c t =>
    by_cases hcond : (l.acctOrNew c).locked = false ∧ ∃ r, l.txs t = some r
        ∧ r.client = c ∧ r.tx_type = TxType.Deposit ∧ r.tx_status = TxStatus.Disputed
    · obtain ⟨hul, r, ht, hcl, hty, hst⟩ := hcond
      have hheld : ¬ r.amount ≤ (l.acctOrNew c).held := by
        simp [isViolation, hul, ht, hcl, hty, hst] at h
        exact not_le.mpr h
      have hw : step l (TransactionEvent.Resolve c t)
          = (l.getOrCreateAccount c).1.setAccount c (l.acctOrNew c) :=
        resolveHandle_insufficient l c t r ht hcl hty hst hul hheld
      have := writeback_frame l c
      rw [hw]
      refine ⟨this.1, fun c' => ?_⟩
      rcases this.2 c' with h' | ⟨hceq, hnone, hnew⟩
      · exact Or.inl h'
      · exact Or.inr ⟨hceq, hnone, hnew⟩
    · have := base c (resolveHandle_early l c t hcond)
      refine ⟨this.1, fun c' => ?_⟩
      rcases this.2 c' with h' | ⟨hceq, hnone, hnew⟩
      · exact Or.inl h'
      · exact Or.inr ⟨hceq, hnone, hnew⟩
  | Chargeback c t =>
    by_cases hcond : (l.acctOrNew c).locked = false ∧ ∃ r, l.txs t = some r
        ∧ r.client = c ∧ r.tx_type = TxType.Deposit ∧ r.tx_status = TxStatus.Disputed
    · obtain ⟨hul, r, ht, hcl, hty, hst⟩ := hcond
      have hheld : ¬ r.amount ≤ (l.acctOrNew c).held := by
        simp [isViolation, hul, ht, hcl, hty, hst] at h
        exact not_le.mpr h
      have hw : step l (TransactionEvent.Chargeback c t)
          = (l.getOrCreateAccount c).1.setAccount c (l.acctOrNew c) :=
        chargebackHandle_insufficient l c t r ht hcl hty hst hul hheld
      have := writeback_frame l c
      rw [hw]
      refine ⟨this.1, fun c' => ?_⟩
      rcases this.2 c' with h' | ⟨hceq, hnone, hnew⟩
      · exact Or.inl h'
      · exact Or.inr ⟨hceq, hnone, hnew⟩
    · have := base c (chargebackHandle_early l c t hcond)
      refine ⟨this.1, fun c' => ?_⟩
      rcases this.2 c' with h' | ⟨hceq, hnone, hnew⟩
      · exact Or.inl h'
      · exact Or.inr ⟨hceq, hnone, hnew⟩

theorem claim_C2_witness :
    (step recordedLedgerW (TransactionEvent.Deposit 1 1 5)).txs 1
      = recordedLedgerW.txs 1 :=
  (claim_C2_violation_noop recordedLedgerW (TransactionEvent.Deposit 1 1 5)
    (by decide)).2.1 1

theorem depositHandle_success (l : Ledger) (c t : Nat) (amt : Money)
    (hul : (l.acctOrNew c).locked = false) (hfresh : l.txs t = none) :
    depositHandle l c t amt
      = ((l.getOrCreateAccount c).1.setAccount c (applyDeposit (l.acctOrNew c) amt)).insertTx
          t ⟨t, c, amt, TxType.Deposit, TxStatus.Normal⟩ := by
  simp [depositHandle, getOrCreate_acct, getOrCreate_txs, Account.isLocked, hul, hfresh]

theorem withdrawalHandle_success (l : Ledger) (c t : Nat) (amt : Money)
    (hul : (l.acctOrNew c).locked = false) (hfresh : l.txs t = none) :
    withdrawalHandle l c t amt
      = ((l.getOrCreateAccount c).1.setAccount c (applyWithdrawal (l.acctOrNew c) amt)).insertTx
          t ⟨t, c, amt, TxType.Withdrawal, TxStatus.Normal⟩ := by
  simp [withdrawalHandle, getOrCreate_acct, getOrCreate_txs, Account.isLocked, hul, hfresh]

theorem disputeHandle_success (l : Ledger) (c t : Nat) (r : TransactionRecord)
    (hul : (l.acctOrNew c).locked = false) (hr : l.txs t = some r) (hcl : r.client = c)
    (hty : r.tx_type = TxType.Deposit) (hst : r.tx_status = TxStatus.Normal) :
    disputeHandle l c t
      = ((l.getOrCreateAccount c).1.setAccount c
          (applyDispute (l.acctOrNew c) r.amount)).setTxStatus t TxStatus.Disputed := by
  simp [disputeHandle, getOrCreate_acct, getOrCreate_txs, Account.isLocked, hul,
    hr, hcl, hty, hst]

theorem resolveHandle_success (l : Ledger) (c t : Nat) (r : TransactionRecord)
    (hul : (l.acctOrNew c).locked = false) (hr : l.txs t = some r) (hcl : r.client = c)
    (hty : r.tx_type = TxType.Deposit) (hst : r.tx_status = TxStatus.Disputed)
    (hheld : r.amount ≤ (l.acctOrNew c).held) :
    resolveHandle l c t
      = ((l.getOrCreateAccount c).1.setAccount c
          ((applyResolve (l.acctOrNew c) r.amount).2)).setTxStatus t TxStatus.Resolved := by
  simp [resolveHandle, getOrCreate_acct, getOrCreate_txs, Account.isLocked, hul,
    hr, hcl, hty, hst, applyResolve, hheld]

theorem chargebackHandle_success (l : Ledger) (c t : Nat) (r : TransactionRecord)
    (hul : (l.acctOrNew c).locked = false) (hr : l.txs t = some r) (hcl : r.client = c)
    (hty : r.tx_type = TxType.Deposit) (hst : r.tx_status = TxStatus.Disputed)
    (hheld : r.amount ≤ (l.acctOrNew c).held) :
    chargebackHandle l c t
      = ((l.getOrCreateAccount c).1.setAccount c
          ((applyChargeback (l.acctOrNew c) r.amount).2)).setTxStatus t TxStatus.ChargedBack := by
  simp [chargebackHandle, getOrCreate_acct, getOrCreate_txs, Account.isLocked, hul,
    hr, hcl, hty, hst, applyChargeback, hheld]

/-- Possible outcomes for any transaction-map entry after one step: unchanged;
a fresh `Normal` record carrying the event's amount; or a status change on a
recorded deposit that keeps the rest of the record. -/
theorem step_txs_cases (l : Ledger) (e : TransactionEvent) (t' : Nat) :
    (step l e).txs t' = l.txs t'
      ∨ (∃ c t, (e = TransactionEvent.Deposit c t (e.amountOf)
            ∧ (step l e).txs t' = some ⟨t, c, e.amountOf, TxType.Deposit, TxStatus.Normal⟩)
          ∨ (e = TransactionEvent.Withdrawal c t (e.amountOf)
            ∧ (step l e).txs t' = some ⟨t, c, e.amountOf, TxType.Withdrawal, TxStatus.Normal⟩))
      ∨ (∃ r st, l.txs t' = some r ∧ r.tx_type = TxType.Deposit
          ∧ (step l e).txs t' = some { r with tx_status := st }) := by
  cases e with
  | Deposit c t amt =>
    by_cases hl : (l.acctOrNew c).locked
    · left
      rw [show step l (TransactionEvent.Deposit c t amt) = depositHandle l c t amt from rfl,
        depositHandle_noop l c t amt (Or.inl hl), getOrCreate_txs]
    · cases hfr : l.txs t with
      | some r0 =>
        left
        rw [show step l (TransactionEvent.Deposit c t amt) = depositHandle l c t amt from rfl,
          depositHandle_noop l c t amt (Or.inr (by simp [hfr])), getOrCreate_txs]
      | none =>
        by_cases ht : t' = t
        · right; left
          refine ⟨c, t, Or.inl ⟨rfl, ?_⟩⟩
          rw [show step l (TransactionEvent.Deposit c t amt) = depositHandle l c t amt from rfl,
            depositHandle_success l c t amt (by simpa using hl) hfr]
          simp [Ledger.insertTx, Ledger.setAccount, ht, TransactionEvent.amountOf]
        · left
          rw [show step l (TransactionEvent.Deposit c t amt) = depositHandle l c t amt from rfl,
            depositHandle_success l c t amt (by simpa using hl) hfr]
          simp [Ledger.insertTx, Ledger.setAccount, ht, getOrCreate_txs]
  | Withdrawal c t amt =>
    by_cases hl : (l.acctOrNew c).locked
    · left
      rw [show step l (TransactionEvent.Withdrawal c t amt) = withdrawalHandle l c t amt from rfl,
        withdrawalHandle_noop l c t amt (Or.inl hl), getOrCreate_txs]
    · cases hfr : l.txs t with
      | some r0 =>
        left
        rw [show step l (TransactionEvent.Withdrawal c t amt) = withdrawalHandle l c t amt from rfl,
          withdrawalHandle_noop l c t amt (Or.inr (by simp [hfr])), getOrCreate_txs]
      | none =>
        by_cases ht : t' = t
        · right; left
          refine ⟨c, t, Or.inr ⟨rfl, ?_⟩⟩
          rw [show step l (TransactionEvent.Withdrawal c t amt) = withdrawalHandle l c t amt from rfl,
            withdrawalHandle_success l c t amt (by simpa using hl) hfr]
          simp [Ledger.insertTx, Ledger.setAccount, ht, TransactionEvent.amountOf]
        · left
          rw [show step l (TransactionEvent.Withdrawal c t amt) = withdrawalHandle l c t amt from rfl,
            withdrawalHandle_success l c t amt (by simpa using hl) hfr]
          simp [Ledger.insertTx, Ledger.setAccount, ht, getOrCreate_txs]
  | Dispute c t =>
    by_cases hcond : (l.acctOrNew c).locked = false ∧ ∃ r, l.txs t = some r
        ∧ r.client = c ∧ r.tx_type = TxType.Deposit ∧ r.tx_status = TxStatus.Normal
    · obtain ⟨hul, r, hr, hcl, hty, hst⟩ := hcond
      by_cases ht : t' = t
      · right; right
        refine ⟨r, TxStatus.Disputed, ht ▸ hr, hty, ?_⟩
        rw [show step l (TransactionEvent.Dispute c t) = disputeHandle l c t from rfl,
          disputeHandle_success l c t r hul hr hcl hty hst]
        simp [Ledger.setTxStatus, Ledger.setAccount, ht, getOrCreate_txs, hr]
      · left
        rw [show step l (TransactionEvent.Dispute c t) = disputeHandle l c t from rfl,
          disputeHandle_success l c t r hul hr hcl hty hst]
        simp [Ledger.setTxStatus, Ledger.setAccount, ht, getOrCreate_txs]
    · left
      rw [show step l (TransactionEvent.Dispute c t) = disputeHandle l c t from rfl,
        disputeHandle_noop l c t hcond, getOrCreate_txs]
  | Resolve c t =>
    by_cases hcond : (l.acctOrNew c).locked = false ∧ ∃ r, l.txs t = some r
        ∧ r.client = c ∧ r.tx_type = TxType.Deposit ∧ r.tx_status = TxStatus.Disputed
    · obtain ⟨hul, r, hr, hcl, hty, hst⟩ := hcond
      by_cases hheld : r.amount ≤ (l.acctOrNew c).held
      · by_cases ht : t' = t
        · right; right
          refine ⟨r, TxStatus.Resolved, ht ▸ hr, hty, ?_⟩
          rw [show step l (TransactionEvent.Resolve c t) = resolveHandle l c t from rfl,
            resolveHandle_success l c t r hul hr hcl hty hst hheld]
          simp [Ledger.setTxStatus, Ledger.setAccount, ht, getOrCreate_txs, hr]
        · left
          rw [show step l (TransactionEvent.Resolve c t) = resolveHandle l c t from rfl,
            resolveHandle_success l c t r hul hr hcl hty hst hheld]
          simp [Ledger.setTxStatus, Ledger.setAccount, ht, getOrCreate_txs]
      · left
        rw [show step l (TransactionEvent.Resolve c t) = resolveHandle l c t from rfl,
          resolveHandle_insufficient l c t r hr hcl hty hst hul hheld]
        simp [Ledger.setAccount, getOrCreate_txs]
    · left
      rw [show step l (TransactionEvent.Resolve c t) = resolveHandle l c t from rfl,
        resolveHandle_early l c t hcond, getOrCreate_txs]
  | Chargeback c t =>
    by_cases hcond : (l.acctOrNew c).locked = false ∧ ∃ r, l.txs t = some r
        ∧ r.client = c ∧ r.tx_type = TxType.Deposit ∧ r.tx_status = TxStatus.Disputed
    · obtain ⟨hul, r, hr, hcl, hty, hst⟩ := hcond
      by_cases hheld : r.amount ≤ (l.acctOrNew c).held
      · by_cases ht : t' = t
        · right; right
          refine ⟨r, TxStatus.ChargedBack, ht ▸ hr, hty, ?_⟩
          rw [show step l (TransactionEvent.Chargeback c t) = chargebackHandle l c t from rfl,
            chargebackHandle_success l c t r hul hr hcl hty hst hheld]
          simp [Ledger.setTxStatus, Ledger.setAccount, ht, getOrCreate_txs, hr]
        · left
          rw [show step l (TransactionEvent.Chargeback c t) = chargebackHandle l c t from rfl,
            chargebackHandle_success l c t r hul hr hcl hty hst hheld]
          simp [Ledger.setTxStatus, Ledger.setAccount, ht, getOrCreate_txs]
      · left
        rw [show step l (TransactionEvent.Chargeback c t) = chargebackHandle l c t from rfl,
          chargebackHandle_insufficient l c t r hr hcl hty hst hul hheld]
        simp [Ledger.setAccount, getOrCreate_txs]
    · left
      rw [show step l (TransactionEvent.Chargeback c t) = chargebackHandle l c t from rfl,
        chargebackHandle_early l c t hcond, getOrCreate_txs]

/-- Possible outcomes for any account entry after one step: unchanged; the
fresh zero account; or the write-back of one of the four balance
mutations applied to the client's (possibly fresh) account, where for a
dispute the amount is taken from some record stored in the ledger. -/
theorem step_accounts_cases (l : Ledger) (e : TransactionEvent) (c' : Nat) :
    (step l e).accounts c' = l.accounts c'
      ∨ (step l e).accounts c' = some Account.new
      ∨ (∃ c amt, (step l e).accounts c' = some (applyDeposit (l.acctOrNew c) amt)
            ∨ (step l e).accounts c' = some (applyWithdrawal (l.acctOrNew c) amt)
            ∨ (step l e).accounts c' = some ((applyResolve (l.acctOrNew c) amt).2)
            ∨ (step l e).accounts c' = some ((applyChargeback (l.acctOrNew c) amt).2))
      ∨ (∃ c t r, l.txs t = some r
          ∧ (step l e).accounts c' = some (applyDispute (l.acctOrNew c) r.amount)) := by
  have hbase : ∀ c : Nat, step l e = (l.getOrCreateAccount c).1 →
      (step l e).accounts c' = l.accounts c'
        ∨ (step l e).accounts c' = some Account.new := by
    intro c hc
    rw [hc]
    rcases getOrCreate_accounts l c c' with h | ⟨_, _, h⟩
    · exact Or.inl h
    · exact Or.inr h
  have hwb : ∀ c : Nat,
      step l e = (l.getOrCreateAccount c).1.setAccount c (l.acctOrNew c) →
      (step l e).accounts c' = l.accounts c'
        ∨ (step l e).accounts c' = some Account.new := by
    intro c hc
    rw [hc]
    rcases (writeback_frame l c).2 c' with h | ⟨_, _, h⟩
    · exact Or.inl h
    · exact Or.inr h
  have hset : ∀ (c : Nat) (a : Account) (l2 : Ledger),
      (step l e).accounts = ((l.getOrCreateAccount c).1.setAccount c a).accounts →
      (step l e).accounts c' = l.accounts c' ∨ (step l e).accounts c' = some Account.new
        ∨ (step l e).accounts c' = some a := by
    intro c a l2 hc
    by_cases hcc : c' = c
    · right; right
      rw [hc]
      simp [Ledger.setAccount, hcc]
    · rw [hc]
      simp only [Ledger.setAccount, if_neg hcc]
      rcases getOrCreate_accounts l c c' with h | ⟨hceq, _, h⟩
      · exact Or.inl h
      · exact absurd hceq hcc
  cases e with
  | Deposit c t amt =>
    by_cases hl : (l.acctOrNew c).locked
    · rcases hbase c (depositHandle_noop l c t amt (Or.inl hl)) with h | h
      · exact Or.inl h
      · exact Or.inr (Or.inl h)
    · cases hfr : l.txs t with
      | some r0 =>
        rcases hbase c (depositHandle_noop l c t amt (Or.inr (by simp [hfr]))) with h | h
        · exact Or.inl h
        · exact Or.inr (Or.inl h)
      | none =>
        have hred := depositHandle_success l c t amt (by simpa using hl) hfr
        have : (step l (TransactionEvent.Deposit c t amt)).accounts
            = ((l.getOrCreateAccount c).1.setAccount c
                (applyDeposit (l.acctOrNew c) amt)).accounts := by
          show (depositHandle l c t amt).accounts = _
          rw [hred]
          rfl
        rcases hset c (applyDeposit (l.acctOrNew c) amt) l this with h | h | h
        · exact Or.inl h
        · exact Or.inr (Or.inl h)
        · exact Or.inr (Or.inr (Or.inl ⟨c, amt, Or.inl h⟩))
  | Withdrawal c t amt =>
    by_cases hl : (l.acctOrNew c).locked
    · rcases hbase c (withdrawalHandle_noop l c t amt (Or.inl hl)) with h | h
      · exact Or.inl h
      · exact Or.inr (Or.inl h)
    · cases hfr : l.txs t with
      | some r0 =>
        rcases hbase c (withdrawalHandle_noop l c t amt (Or.inr (by simp [hfr]))) with h | h
        · exact Or.inl h
        · exact Or.inr (Or.inl h)
      | none =>
        have hred := withdrawalHandle_success l c t amt (by simpa using hl) hfr
        have : (step l (TransactionEvent.Withdrawal c t amt)).accounts
            = ((l.getOrCreateAccount c).1.setAccount c
                (applyWithdrawal (l.acctOrNew c) amt)).accounts := by
          show (withdrawalHandle l c t amt).accounts = _
          rw [hred]
          rfl
        rcases hset c (applyWithdrawal (l.acctOrNew c) amt) l this with h | h | h
        · exact Or.inl h
        · exact Or.inr (Or.inl h)
        · exact Or.inr (Or.inr (Or.inl ⟨c, amt, Or.inr (Or.inl h)⟩))
  | Dispute c t =>
    by_cases hcond : (l.acctOrNew c).locked = false ∧ ∃ r, l.txs t = some r
        ∧ r.client = c ∧ r.tx_type = TxType.Deposit ∧ r.tx_status = TxStatus.Normal
    · obtain ⟨hul, r, hr, hcl, hty, hst⟩ := hcond
      have hred := disputeHandle_success l c t r hul hr hcl hty hst
      have : (step l (TransactionEvent.Dispute c t)).accounts
          = ((l.getOrCreateAccount c).1.setAccount c
              (applyDispute (l.acctOrNew c) r.amount)).accounts := by
        show (disputeHandle l c t).accounts = _
        rw [hred]
        rfl
      rcases hset c (applyDispute (l.acctOrNew c) r.amount) l this with h | h | h
      · exact Or.inl h
      · exact Or.inr (Or.inl h)
      · exact Or.inr (Or.inr (Or.inr ⟨c, t, r, hr, h⟩))
    · rcases hbase c (disputeHandle_noop l c t hcond) with h | h
      · exact Or.inl h
      · exact Or.inr (Or.inl h)
  | Resolve c t =>
    by_cases hcond : (l.acctOrNew c).locked = false ∧ ∃ r, l.txs t = some r
        ∧ r.client = c ∧ r.tx_type = TxType.Deposit ∧ r.tx_status = TxStatus.Disputed
    · obtain ⟨hul, r, hr, hcl, hty, hst⟩ := hcond
      by_cases hheld : r.amount ≤ (l.acctOrNew c).held
      · have hred := resolveHandle_success l c t r hul hr hcl hty hst hheld
        have : (step l (TransactionEvent.Resolve c t)).accounts
            = ((l.getOrCreateAccount c).1.setAccount c
                ((applyResolve (l.acctOrNew c) r.amount).2)).accounts := by
          show (resolveHandle l c t).accounts = _
          rw [hred]
          rfl
        rcases hset c ((applyResolve (l.acctOrNew c) r.amount).2) l this with h | h | h
        · exact Or.inl h
        · exact Or.inr (Or.inl h)
        · exact Or.inr (Or.inr (Or.inl ⟨c, r.amount, Or.inr (Or.inr (Or.inl h))⟩))
      · rcases hwb c (resolveHandle_insufficient l c t r hr hcl hty hst hul hheld)
          with h | h
        · exact Or.inl h
        · exact Or.inr (Or.inl h)
    · rcases hbase c (resolveHandle_early l c t hcond) with h | h
      · exact Or.inl h
      · exact Or.inr (Or.inl h)
  | Chargeback c t =>
    by_cases hcond : (l.acctOrNew c).locked = false ∧ ∃ r, l.txs t = some r
        ∧ r.client = c ∧ r.tx_type = TxType.Deposit ∧ r.tx_status = TxStatus.Disputed
    · obtain ⟨hul, r, hr, hcl, hty, hst⟩ := hcond
      by_cases hheld : r.amount ≤ (l.acctOrNew c).held
      · have hred := chargebackHandle_success l c t r hul hr hcl hty hst hheld
        have : (step l (TransactionEvent.Chargeback c t)).accounts
            = ((l.getOrCreateAccount c).1.setAccount c
                ((applyChargeback (l.acctOrNew c) r.amount).2)).accounts := by
          show (chargebackHandle l c t).accounts = _
          rw [hred]
          rfl
        rcases hset c ((applyChargeback (l.acctOrNew c) r.amount).2) l this with h | h | h
        · exact Or.inl h
        · exact Or.inr (Or.inl h)
        · exact Or.inr (Or.inr (Or.inl ⟨c, r.amount, Or.inr (Or.inr (Or.inr h))⟩))
      · rcases hwb c (chargebackHandle_insufficient l c t r hr hcl hty hst hul hheld)
          with h | h
        · exact Or.inl h
        · exact Or.inr (Or.inl h)
    · rcases hbase c (chargebackHandle_early l c t hcond) with h | h
      · exact Or.inl h
      · exact Or.inr (Or.inl h)

/-- Invariant for C9: all recorded amounts and all held balances are
non-negative. -/
def heldNonnegInv (l : Ledger) : Prop :=
  (∀ t r, l.txs t = some r → 0 ≤ r.amount) ∧ ∀ c a, l.accounts c = some a → 0 ≤ a.held

theorem heldNonnegInv_step (l : Ledger) (e : TransactionEvent)
    (hamt : 0 ≤ e.amountOf) (hinv : heldNonnegInv l) : heldNonnegInv (step l e) := by
  obtain ⟨htx, hac⟩ := hinv
  have hheld0 : ∀ c, 0 ≤ (l.acctOrNew c).held := by
    intro c
    unfold Ledger.acctOrNew
    cases ha : l.accounts c with
    | some a => simpa using hac c a ha
    | none => simp [Account.new]
  constructor
  · intro t r hr
    rcases step_txs_cases l e t with h | ⟨c, t0, hcase⟩ | ⟨r0, st, hr0, _, h⟩
    · exact htx t r (by rw [← h]; exact hr)
    · rcases hcase with ⟨_, heq⟩ | ⟨_, heq⟩ <;>
      · rw [heq] at hr
        cases hr
        simpa using hamt
    · rw [h] at hr
      cases hr
      simpa using htx t r0 hr0
  · intro c a ha
    rcases step_accounts_cases l e c with h | h | ⟨c0, amt, hcase⟩ | ⟨c0, t0, r0, hr0, h⟩
    · exact hac c a (by rw [← h]; exact ha)
    · rw [h] at ha
      cases ha
      simp [Account.new]
    · rcases hcase with h | h | h | h <;> rw [h] at ha <;> cases ha
      · simpa [applyDeposit] using hheld0 c0
      · have := hheld0 c0
        by_cases hc : amt ≤ (l.acctOrNew c0).available <;>
          simpa [applyWithdrawal, hc] using this
      · by_cases hc : amt ≤ (l.acctOrNew c0).held
        · simp only [applyResolve, if_pos hc]
          show 0 ≤ (l.acctOrNew c0).held - amt
          exact sub_nonneg.mpr hc
        · simpa [applyResolve, hc] using hheld0 c0
      · by_cases hc : amt ≤ (l.acctOrNew c0).held
        · simp only [applyChargeback, if_pos hc]
          show 0 ≤ (l.acctOrNew c0).held - amt
          exact sub_nonneg.mpr hc
        · simpa [applyChargeback, hc] using hheld0 c0
    · rw [h] at ha
      cases ha
      have h1 := htx t0 r0 hr0
      have h2 := hheld0 c0
      show 0 ≤ (l.acctOrNew c0).held + r0.amount
      exact add_nonneg h2 h1

/-- Claim C9: starting from the empty ledger, if every Deposit and Withdrawal
in the sequence carries a non-negative amount, every account's held balance
is non-negative after processing (and hence after every step, since every
prefix of such a sequence again satisfies the amount condition). -/
theorem claim_C9_held_nonneg (es : List TransactionEvent)
    (h : ∀ e ∈ es, 0 ≤ e.amountOf) :
    ∀ c a, (stepList Ledger.new es).accounts c = some a → 0 ≤ a.held := by
  have hgen : ∀ (es' : List TransactionEvent) (l : Ledger), heldNonnegInv l →
      (∀ e ∈ es', 0 ≤ e.amountOf) → heldNonnegInv (stepList l es') := by
    intro es'
    induction es' with
    | nil => exact fun l hl _ => hl
    | cons e rest ih =>
      intro l hl hall
      have h1 : heldNonnegInv (step l e) := heldNonnegInv_step l e (hall e (by simp)) hl
      have := ih (step l e) h1 (fun e' he' => hall e' (by simp [he']))
      simpa [stepList] using this
  have hempty : heldNonnegInv Ledger.new :=
    ⟨fun t r hr => by simp [Ledger.new] at hr, fun c a ha => by simp [Ledger.new] at ha⟩
  exact (hgen es Ledger.new hempty h).2

/-- Deposit-then-dispute trace used to instantiate C9. -/
def c9EventsW : List TransactionEvent :=
  [TransactionEvent.Deposit 1 1 5, TransactionEvent.Dispute 1 1]

theorem claim_C9_witness : 0 ≤ (Account.mk 0 5 false).held :=
  claim_C9_held_nonneg c9EventsW (by decide) 1 ⟨0, 5, false⟩ (by decide)

/-- Invariant for C10: every recorded withdrawal still has status Normal. -/
def withdrawalAlwaysNormal (l : Ledger) : Prop :=
  ∀ t r, l.txs t = some r → r.tx_type = TxType.Withdrawal → r.tx_status = TxStatus.Normal

theorem withdrawalAlwaysNormal_step (l : Ledger) (e : TransactionEvent)
    (h : withdrawalAlwaysNormal l) : withdrawalAlwaysNormal (step l e) := by
  intro t r hr hty
  rcases step_txs_cases l e t with heq | ⟨c, t0, hcase⟩ | ⟨r0, st, hr0, hdep, heq⟩
  · exact h t r (by rw [← heq]; exact hr) hty
  · rcases hcase with ⟨_, heq⟩ | ⟨_, heq⟩ <;>
    · rw [heq] at hr
      cases hr
      rfl
  · rw [heq] at hr
    cases hr
    simp at hty
    rw [hdep] at hty
    cases hty

/-- Claim C10: in every state reachable from the empty ledger, every recorded
Withdrawal transaction has status Normal — withdrawals are inserted Normal
and the dispute, resolve and chargeback handlers require type Deposit before
changing any status. -/
theorem claim_C10_withdrawal_records_normal (es : List TransactionEvent) :
    ∀ t r, (stepList Ledger.new es).txs t = some r →
      r.tx_type = TxType.Withdrawal → r.tx_status = TxStatus.Normal := by
  have hgen : ∀ (es' : List TransactionEvent) (l : Ledger), withdrawalAlwaysNormal l →
      withdrawalAlwaysNormal (stepList l es') := by
    intro es'
    induction es' with
    | nil => exact fun l hl => hl
    | cons e rest ih =>
      intro l hl
      simpa [stepList] using ih (step l e) (withdrawalAlwaysNormal_step l e hl)
  exact hgen es Ledger.new (fun t r hr _ => by simp [Ledger.new] at hr)

/-- Withdrawal trace used to instantiate C10. -/
def c10EventsW : List TransactionEvent := [TransactionEvent.Withdrawal 1 2 3]

theorem claim_C10_witness :
    (TransactionRecord.mk 2 1 3 TxType.Withdrawal TxStatus.Normal).tx_status
      = TxStatus.Normal :=
  claim_C10_withdrawal_records_normal c10EventsW 2
    ⟨2, 1, 3, TxType.Withdrawal, TxStatus.Normal⟩ (by decide) rfl

/-- Claim C7: on every input string, Money parsing agrees with the spec-side
description — the exact rational value of the text times 10 000, rounded to
the nearest unit with ties away from zero, failing exactly on empty or
non-numeric input and on `i64` overflow — and the three concrete round-trip
examples hold: "1.2345" parses and formats back to "1.2345", "1.99999"
rounds to "2.0000", "0.00001" rounds to "0.0000". -/
theorem claim_C7_money_parsing :
    (∀ s : String, Money.fromStr s = Money.fromStrSpec s)
      ∧ (Money.fromStr "1.2345").map Money.toString4dp = some "1.2345"
      ∧ (Money.fromStr "1.99999").map Money.toString4dp = some "2.0000"
      ∧ (Money.fromStr "0.00001").map Money.toString4dp = some "0.0000" :=
  ⟨fromStr_eq_fromStrSpec, by decide, by decide, by decide⟩

end TransactionParser
